import Mathlib

/-!
Shallow embedding of the spinnaker `buildtool` release-engineering core:
the semantic-version value type, the BOM builder, the repository-command
orchestrator, the branch source-code manager and the spinnaker
release/publish commands, together with theorems checking the
natural-language specification against this embedding.
-/

/-! ## Decimal digit helpers (used by the SemanticVersion model) -/

/-- The character for a decimal digit value (values above 9 clamp to '9';
they never arise in use). -/
def digitChar (d : Nat) : Char :=
  match d with
  | 0 => '0' | 1 => '1' | 2 => '2' | 3 => '3' | 4 => '4'
  | 5 => '5' | 6 => '6' | 7 => '7' | 8 => '8' | _ => '9'

/-- The numeric value of a decimal digit character. -/
def digitVal (c : Char) : Nat := c.toNat - 48

/-- Little-endian decimal digits of a natural number (empty for 0). -/
def natToRevDigits (n : Nat) : List Char :=
  if h : n = 0 then []
  else digitChar (n % 10) :: natToRevDigits (n / 10)
termination_by n
decreasing_by exact Nat.div_lt_self (Nat.pos_of_ne_zero h) (by norm_num)

/-- Big-endian decimal rendering of a natural number, as `%d` renders it. -/
def renderNatChars (n : Nat) : List Char :=
  if n = 0 then ['0'] else (natToRevDigits n).reverse

/-- Numeric value of a big-endian decimal digit string. -/
def natOfDigits (l : List Char) : Nat :=
  l.foldl (fun a c => a * 10 + digitVal c) 0

theorem digitChar_isDigit (d : Nat) : (digitChar d).isDigit = true := by
  unfold digitChar
  split <;> decide

theorem digitVal_digitChar (d : Nat) (h : d < 10) : digitVal (digitChar d) = d := by
  interval_cases d <;> decide

theorem natToRevDigits_ne_nil (n : Nat) (h : n ≠ 0) : natToRevDigits n ≠ [] := by
  rw [natToRevDigits]
  simp [h]

theorem natToRevDigits_all_digit (n : Nat) :
    ∀ c ∈ natToRevDigits n, c.isDigit = true := by
  induction n using Nat.strong_induction_on with
  | _ n ih =>
    rw [natToRevDigits]
    by_cases h : n = 0
    · simp [h]
    · simp only [h, dite_false]
      intro c hc
      rcases List.mem_cons.mp hc with hc | hc
      · rw [hc]; exact digitChar_isDigit _
      · exact ih (n / 10) (Nat.div_lt_self (Nat.pos_of_ne_zero h) (by norm_num)) c hc

theorem renderNatChars_all_digit (n : Nat) :
    ∀ c ∈ renderNatChars n, c.isDigit = true := by
  unfold renderNatChars
  by_cases h : n = 0
  · simp [h]
  · simp only [h, if_false]
    intro c hc
    exact natToRevDigits_all_digit n c (List.mem_reverse.mp hc)

theorem renderNatChars_ne_nil (n : Nat) : renderNatChars n ≠ [] := by
  unfold renderNatChars
  by_cases h : n = 0
  · simp [h]
  · simp only [h, if_false, ne_eq, List.reverse_eq_nil_iff]
    exact natToRevDigits_ne_nil n h

/-- Little-endian digit value (helper for the round-trip proof). -/
def valRevDigits (l : List Char) : Nat :=
  l.foldr (fun c a => a * 10 + digitVal c) 0

theorem valRevDigits_natToRevDigits (n : Nat) :
    valRevDigits (natToRevDigits n) = n := by
  induction n using Nat.strong_induction_on with
  | _ n ih =>
    rw [natToRevDigits]
    by_cases h : n = 0
    · simp [h, valRevDigits]
    · simp only [h, dite_false, valRevDigits, List.foldr_cons]
      have hrec : valRevDigits (natToRevDigits (n / 10)) = n / 10 :=
        ih (n / 10) (Nat.div_lt_self (Nat.pos_of_ne_zero h) (by norm_num))
      rw [valRevDigits] at hrec
      rw [hrec, digitVal_digitChar (n % 10) (Nat.mod_lt n (by norm_num))]
      omega

theorem natOfDigits_renderNatChars (n : Nat) :
    natOfDigits (renderNatChars n) = n := by
  unfold renderNatChars
  by_cases h : n = 0
  · simp [h, natOfDigits, digitVal]
  · simp only [h, if_false, natOfDigits, List.foldl_reverse]
    exact valRevDigits_natToRevDigits n

/-! ## takeWhile / dropWhile helpers -/

theorem takeWhile_append_all {p : Char → Bool} {l₁ : List Char} (l₂ : List Char)
    (h : ∀ x ∈ l₁, p x = true) : (l₁ ++ l₂).takeWhile p = l₁ ++ l₂.takeWhile p := by
  induction l₁ with
  | nil => simp
  | cons a l ih =>
    have ha : p a = true := h a (List.mem_cons_self a l)
    simp only [List.cons_append, List.takeWhile_cons, ha, if_true]
    rw [ih (fun x hx => h x (List.mem_cons_of_mem a hx))]

theorem dropWhile_append_all {p : Char → Bool} {l₁ : List Char} (l₂ : List Char)
    (h : ∀ x ∈ l₁, p x = true) : (l₁ ++ l₂).dropWhile p = l₂.dropWhile p := by
  induction l₁ with
  | nil => simp
  | cons a l ih =>
    have ha : p a = true := h a (List.mem_cons_self a l)
    simp only [List.cons_append, List.dropWhile_cons, ha, if_true]
    exact ih (fun x hx => h x (List.mem_cons_of_mem a hx))

theorem takeWhile_all {p : Char → Bool} {l : List Char}
    (h : ∀ x ∈ l, p x = true) : l.takeWhile p = l := by
  have := @takeWhile_append_all p l [] h
  simpa using this

theorem dropWhile_all {p : Char → Bool} {l : List Char}
    (h : ∀ x ∈ l, p x = true) : l.dropWhile p = [] := by
  have := @dropWhile_append_all p l [] h
  simpa using this

/-! ## SemanticVersion

Modelled from the spec: the `SemanticVersion` value type of the buildtool
(`buildtool` support module, not present under `src/`): an immutable
(major, minor, patch) triple; `make` parses a tag or version string by the
pattern `^\D*(\d+)\.(\d+)\.(\d+)$` (returning `none` where the source raises
a format error), and `to_version` renders the `<major>.<minor>.<patch>`
string form. -/

structure SemanticVersion where
  major : Nat
  minor : Nat
  patch : Nat
deriving DecidableEq, Repr

/-- Read the maximal nonempty digit run at the head of the input, as a number
together with the remaining input; fail if there is no digit. -/
def readNat (l : List Char) : Option (Nat × List Char) :=
  if l.takeWhile Char.isDigit = [] then none
  else some (natOfDigits (l.takeWhile Char.isDigit), l.dropWhile Char.isDigit)

/-- Expect a literal dot at the head of the input. -/
def expectDot : List Char → Option (List Char)
  | [] => none
  | c :: r => if c = '.' then some r else none

/-- Modelled from the spec: parse of the pattern `^\D*(\d+)\.(\d+)\.(\d+)$`
over a character list: skip the maximal run of non-digits, then read three
maximal nonempty digit runs separated by dots, requiring the end of input. -/
def parseSemVerChars (cs : List Char) : Option SemanticVersion :=
  match readNat (cs.dropWhile (fun c => !c.isDigit)) with
  | none => none
  | some (a, r1) =>
    match expectDot r1 with
    | none => none
    | some r2 =>
      match readNat r2 with
      | none => none
      | some (b, r3) =>
        match expectDot r3 with
        | none => none
        | some r4 =>
          match readNat r4 with
          | none => none
          | some (c, r5) => if r5 = [] then some ⟨a, b, c⟩ else none

/-- Modelled from the spec: `SemanticVersion.make` parses a tag or version
string, failing (none) when the pattern does not match. -/
def SemanticVersion.make (s : String) : Option SemanticVersion :=
  parseSemVerChars s.data

/-- Modelled from the spec: `SemanticVersion.to_version` renders the
`<major>.<minor>.<patch>` string. -/
def SemanticVersion.to_version (v : SemanticVersion) : String :=
  String.mk (renderNatChars v.major ++ '.' :: (renderNatChars v.minor ++ '.' :: renderNatChars v.patch))

/-- A version string of the form `major.minor.patch` over canonical decimal
renderings of three non-negative integers. -/
def versionString (a b c : Nat) : String :=
  String.mk (renderNatChars a ++ '.' :: (renderNatChars b ++ '.' :: renderNatChars c))

theorem readNat_render (n : Nat) (rest : List Char)
    (h1 : rest.takeWhile Char.isDigit = []) (h2 : rest.dropWhile Char.isDigit = rest) :
    readNat (renderNatChars n ++ rest) = some (n, rest) := by
  unfold readNat
  rw [takeWhile_append_all rest (renderNatChars_all_digit n), h1, List.append_nil,
      dropWhile_append_all rest (renderNatChars_all_digit n), h2,
      if_neg (renderNatChars_ne_nil n), natOfDigits_renderNatChars]

theorem parseSemVerChars_versionString (a b c : Nat) :
    parseSemVerChars
      (renderNatChars a ++ '.' :: (renderNatChars b ++ '.' :: renderNatChars c)) =
      some ⟨a, b, c⟩ := by
  have hdot : ('.' : Char).isDigit = false := by decide
  obtain ⟨a0, A', hAeq⟩ := List.exists_cons_of_ne_nil (renderNatChars_ne_nil a)
  have ha0 : a0.isDigit = true := by
    have hA := renderNatChars_all_digit a
    rw [hAeq] at hA; exact hA a0 (List.mem_cons_self _ _)
  have hdropNon :
      (renderNatChars a ++ '.' :: (renderNatChars b ++ '.' :: renderNatChars c)).dropWhile
        (fun c => !c.isDigit) =
      renderNatChars a ++ '.' :: (renderNatChars b ++ '.' :: renderNatChars c) := by
    rw [hAeq]
    simp [List.dropWhile_cons, ha0]
  have h1 : readNat (renderNatChars a ++ '.' :: (renderNatChars b ++ '.' :: renderNatChars c)) =
      some (a, '.' :: (renderNatChars b ++ '.' :: renderNatChars c)) :=
    readNat_render a _ (by simp [List.takeWhile_cons, hdot]) (by simp [List.dropWhile_cons, hdot])
  have h2 : readNat (renderNatChars b ++ '.' :: renderNatChars c) =
      some (b, '.' :: renderNatChars c) :=
    readNat_render b _ (by simp [List.takeWhile_cons, hdot]) (by simp [List.dropWhile_cons, hdot])
  have h3 : readNat (renderNatChars c) = some (c, []) := by
    have h := readNat_render c [] (by simp) (by simp)
    rw [List.append_nil] at h
    exact h
  unfold parseSemVerChars
  rw [hdropNon]
  simp [h1, h2, h3, expectDot]

/-- C8: parsing a canonical `major.minor.patch` string yields the triple of
its components and rendering it back yields the string unchanged, and for
every SemanticVersion value, parsing its rendering returns the value. -/
theorem C8_semver_round_trip :
    (∀ a b c : Nat,
      SemanticVersion.make (versionString a b c) = some ⟨a, b, c⟩ ∧
      SemanticVersion.to_version ⟨a, b, c⟩ = versionString a b c) ∧
    (∀ w : SemanticVersion, SemanticVersion.make (SemanticVersion.to_version w) = some w) := by
  constructor
  · intro a b c
    refine ⟨?_, rfl⟩
    show parseSemVerChars _ = _
    exact parseSemVerChars_versionString a b c
  · intro w
    have hdata : w.to_version.data =
        renderNatChars w.major ++ '.' :: (renderNatChars w.minor ++ '.' :: renderNatChars w.patch) := rfl
    show parseSemVerChars w.to_version.data = some w
    rw [hdata, parseSemVerChars_versionString w.major w.minor w.patch]

/-! ## Path helper -/

/-- The directory part of a path or URL: everything before the last slash
(empty when there is no slash), matching what os.path.dirname produces on
the origin paths and URLs at hand. -/
def dirname (s : String) : String :=
  String.mk (((s.data.reverse.dropWhile (fun c => c ≠ '/')).drop 1).reverse)

/-! ## BOM data model

Modelled from the spec: the data model of the BOM builder
(`buildtool/bom_commands.py`, not present under `src/`): repository
summaries, source info, repository descriptors, service entries and the
rendered BOM mapping. -/

structure RepositorySummary where
  commit_id : String
  tag : String
  version : String
  prev_version : String
  commit_messages : List String
deriving DecidableEq, Repr

structure SourceInfo where
  build_number : String
  summary : RepositorySummary
deriving DecidableEq, Repr

/-- A repository descriptor (the source's GitRepositorySpec). -/
structure GitRepositorySpec where
  name : String
  git_dir : String
  origin : String
  upstream : Option String
  commit_id : Option String
  branch : Option String
deriving DecidableEq, Repr

/-- One `services` entry of a BOM: the pinned commit, the derived version,
and a gitPrefix recorded only when it differs from the BOM-wide one. -/
structure ServiceEntry where
  commit : String
  version : String
  gitPrefix : Option String
deriving DecidableEq, Repr

structure ArtifactSources where
  gitPrefix : Option String
  debianRepository : String
  dockerRegistry : String
  googleImageProject : String
deriving DecidableEq, Repr

structure Bom where
  version : String
  timestamp : String
  artifactSources : ArtifactSources
  dependencies : List (String × String)
  services : List (String × ServiceEntry)
deriving DecidableEq, Repr

/-- The configuration the BOM builder reads. -/
structure BomOptions where
  git_branch : String
  build_number : String
  bintray_org : String
  bintray_debian_repository : String
  docker_registry : String
  publish_gce_image_project : String
deriving DecidableEq, Repr

/-! ## BOM builder

Modelled from the spec: the `BomBuilder` of `buildtool/bom_commands.py`
(not present under `src/`): it accumulates per-repository version facts,
optionally seeded from a prior BOM, and renders the final manifest. -/

/-- One registered repository fact: the persisted service name (after the
repository-name to service-name indirection), commit, derived version and
the registration origin. -/
structure AddedService where
  serviceName : String
  commit : String
  version : String
  origin : String
deriving DecidableEq, Repr

structure BomBuilder where
  options : BomOptions
  repository_name_to_service_name : String → String
  baseServices : List (String × ServiceEntry)
  basePrefix : Option String
  dependencies : List (String × String)
  added : List AddedService

/-- Modelled from the spec: the plain BomBuilder constructor; dependencies
load from the defaults source, no prior BOM. -/
def BomBuilder.new (options : BomOptions) (svcName : String → String)
    (deps : List (String × String)) : BomBuilder :=
  { options := options, repository_name_to_service_name := svcName,
    baseServices := [], basePrefix := none, dependencies := deps, added := [] }

/-- Modelled from the spec: `new_from_bom` seeds dependencies and services
from the prior BOM, so later `add_repository` calls overwrite only the
touched services. -/
def BomBuilder.new_from_bom (options : BomOptions) (svcName : String → String)
    (prior : Bom) : BomBuilder :=
  { options := options, repository_name_to_service_name := svcName,
    baseServices := prior.services, basePrefix := prior.artifactSources.gitPrefix,
    dependencies := prior.dependencies, added := [] }

/-- Modelled from the spec: `add_repository` registers the service entry for
the repository under its persisted service name, with version
`<summary.version>-<build_number>`. -/
def BomBuilder.add_repository (b : BomBuilder) (repository : GitRepositorySpec)
    (source_info : SourceInfo) : BomBuilder :=
  { b with added := b.added ++ [{
      serviceName := b.repository_name_to_service_name repository.name,
      commit := source_info.summary.commit_id,
      version := source_info.summary.version ++ "-" ++ source_info.build_number,
      origin := repository.origin }] }

/-- The origin directory-prefixes of the registered repositories, in
registration order. -/
def BomBuilder.originPrefixes (b : BomBuilder) : List String :=
  b.added.map (fun a => dirname a.origin)

/-- Running scan for the most common element: a prefix becomes the winner
exactly when its running count strictly exceeds the current winning count,
so the first prefix to reach the maximum keeps winning until strictly
exceeded. -/
def dmcpGo (done : List String) (winner : Option String) (wc : Nat) :
    List String → Option String
  | [] => winner
  | p :: rest =>
    if wc < done.count p + 1 then dmcpGo (done ++ [p]) (some p) (done.count p + 1) rest
    else dmcpGo (done ++ [p]) winner wc rest

/-- Modelled from the spec: `determine_most_common_prefix` groups the
registered repositories by origin directory-prefix and returns the prefix
with the most repositories, first-to-reach winning ties; none when no
repository is registered. -/
def determine_most_common_prefix (b : BomBuilder) : Option String :=
  dmcpGo [] none 0 b.originPrefixes

/-- The service entry rendered for a registration: its own gitPrefix is
recorded only when it differs from the BOM-wide common prefix. -/
def AddedService.toEntry (a : AddedService) (common : Option String) : ServiceEntry :=
  { commit := a.commit, version := a.version,
    gitPrefix := if common = some (dirname a.origin) then none
                 else some (dirname a.origin) }

/-- Associative update of a services mapping (dict assignment). -/
def setService (l : List (String × ServiceEntry)) (k : String) (v : ServiceEntry) :
    List (String × ServiceEntry) :=
  match l with
  | [] => [(k, v)]
  | (k', v') :: rest => if k' = k then (k, v) :: rest else (k', v') :: setService rest k v

/-- Apply the registered updates, in registration order, over the seeded
services mapping. -/
def applyServiceUpdates (base : List (String × ServiceEntry))
    (news : List (String × ServiceEntry)) : List (String × ServiceEntry) :=
  news.foldl (fun acc kv => setService acc kv.1 kv.2) base

/-- The BOM-wide common prefix used at build time: the prior BOM's prefix in
rebuild mode, else the most common prefix over the registered repositories. -/
def BomBuilder.commonPrefix (b : BomBuilder) : Option String :=
  match b.basePrefix with
  | some p => some p
  | none => determine_most_common_prefix b

/-- Modelled from the spec: `build()` renders the BOM: version from the
branch and build number, the given build time, artifact sources from
configuration with the common prefix (the prior BOM's prefix in rebuild
mode), the dependency block, and the seeded services overlaid with the
registered entries. -/
def BomBuilder.build (b : BomBuilder) (buildTime : String) : Bom :=
  { version := b.options.git_branch ++ "-" ++ b.options.build_number,
    timestamp := buildTime,
    artifactSources := {
      gitPrefix := b.commonPrefix,
      debianRepository := "https://dl.bintray.com/" ++ b.options.bintray_org ++ "/" ++
        b.options.bintray_debian_repository,
      dockerRegistry := b.options.docker_registry,
      googleImageProject := b.options.publish_gce_image_project },
    dependencies := b.dependencies,
    services := applyServiceUpdates b.baseServices
      (b.added.map (fun a => (a.serviceName, a.toEntry b.commonPrefix))) }

/-! ## Lemmas about the most-common-prefix scan -/

theorem count_add_count_le_length (l : List String) (p q : String) (h : p ≠ q) :
    l.count p + l.count q ≤ l.length := by
  induction l with
  | nil => simp
  | cons a l ih =>
    simp only [List.count_cons, List.length_cons, beq_iff_eq]
    split_ifs with h1 h2
    · exact absurd (h1.symm.trans h2) h
    · omega
    · omega
    · omega

theorem dmcpGo_strict_max (rest : List String) :
    ∀ (done : List String) (winner : Option String) (wc : Nat),
      (∀ q, done.count q ≤ wc) →
      (match winner with
       | none => wc = 0
       | some w => done.count w = wc) →
      ∀ p, p ∈ done ++ rest →
        (∀ q, q ≠ p → (done ++ rest).count q < (done ++ rest).count p) →
        dmcpGo done winner wc rest = some p := by
  induction rest with
  | nil =>
    intro done winner wc hbound hwin p hp hmax
    rw [List.append_nil] at hp hmax
    match winner with
    | none =>
      exfalso
      have h1 : 0 < done.count p := List.count_pos_iff.mpr hp
      have h2 : done.count p ≤ wc := hbound p
      simp only at hwin
      omega
    | some w =>
      simp only at hwin
      show some w = some p
      by_cases hwp : w = p
      · rw [hwp]
      · exfalso
        have h1 : done.count w < done.count p := hmax w hwp
        have h2 : done.count p ≤ wc := hbound p
        omega
  | cons r rs ih =>
    intro done winner wc hbound hwin p hp hmax
    have hsplit : done ++ r :: rs = (done ++ [r]) ++ rs := by
      rw [List.append_assoc]; rfl
    rw [hsplit] at hp hmax
    show dmcpGo done winner wc (r :: rs) = some p
    rw [dmcpGo]
    by_cases hc : wc < done.count r + 1
    · rw [if_pos hc]
      apply ih (done ++ [r]) (some r) (done.count r + 1) ?_ ?_ p hp hmax
      · intro q
        rw [List.count_append]
        by_cases hq : q = r
        · subst hq; simp
        · have hz : List.count q [r] = 0 := by
            simp [List.count_cons, hq]
          rw [hz]
          have := hbound q
          omega
      · show (done ++ [r]).count r = done.count r + 1
        rw [List.count_append]
        simp
    · rw [if_neg hc]
      apply ih (done ++ [r]) winner wc ?_ ?_ p hp hmax
      · intro q
        rw [List.count_append]
        by_cases hq : q = r
        · rw [hq]
          have hone : List.count r [r] = 1 := by simp
          rw [hone]
          omega
        · have hz : List.count q [r] = 0 := by
            simp [List.count_cons, hq]
          rw [hz]
          have := hbound q
          omega
      · match winner with
        | none => simpa using hwin
        | some w =>
          simp only at hwin ⊢
          rw [List.count_append]
          by_cases hw : w = r
          · exfalso
            subst hw
            rw [hwin] at hc
            omega
          · have hz : List.count w [r] = 0 := by
              simp [List.count_cons, hw]
            rw [hz, hwin]
            omega

theorem dmcp_strict_majority (l : List String) (p : String)
    (h : 2 * l.count p > l.length) : dmcpGo [] none 0 l = some p := by
  have hmem : p ∈ l := by
    by_contra hmem
    rw [List.count_eq_zero_of_not_mem hmem] at h
    have := l.length
    omega
  have hmax : ∀ q, q ≠ p → l.count q < l.count p := by
    intro q hq
    have := count_add_count_le_length l q p hq
    omega
  have := dmcpGo_strict_max l [] none 0 (by simp) (by simp) p (by simpa using hmem)
    (by simpa using hmax)
  exact this

/-! ## Lemmas about services-mapping updates -/

theorem lookup_setService_self (l : List (String × ServiceEntry)) (k : String) (v : ServiceEntry) :
    List.lookup k (setService l k v) = some v := by
  induction l with
  | nil => simp [setService, List.lookup]
  | cons kv rest ih =>
    obtain ⟨k', v'⟩ := kv
    rw [setService]
    by_cases h : k' = k
    · rw [if_pos h]
      simp [List.lookup]
    · rw [if_neg h]
      have : (k == k') = false := beq_eq_false_iff_ne.mpr (Ne.symm h)
      simp [List.lookup, this, ih]

theorem lookup_setService_ne (l : List (String × ServiceEntry)) (k k₁ : String)
    (v : ServiceEntry) (h : k₁ ≠ k) :
    List.lookup k₁ (setService l k v) = List.lookup k₁ l := by
  induction l with
  | nil => simp [setService, List.lookup, beq_eq_false_iff_ne.mpr h]
  | cons kv rest ih =>
    obtain ⟨k', v'⟩ := kv
    rw [setService]
    by_cases hk : k' = k
    · rw [if_pos hk, hk]
      simp [List.lookup, beq_eq_false_iff_ne.mpr h]
    · rw [if_neg hk]
      by_cases h1 : k₁ = k'
      · simp [List.lookup, h1]
      · simp [List.lookup, beq_eq_false_iff_ne.mpr h1, ih]

theorem applyServiceUpdates_append_single (base news : List (String × ServiceEntry))
    (k : String) (v : ServiceEntry) :
    applyServiceUpdates base (news ++ [(k, v)]) =
      setService (applyServiceUpdates base news) k v := by
  simp [applyServiceUpdates, List.foldl_append]

/-! ## Claim theorems about the BOM builder -/

/-- C1: `determine_most_common_prefix` returns none with no repositories
registered, returns P0 over registration order [P0, P0, P1] and P1 over
[P0, P1, P1], returns the first prefix to reach the maximum on a tie
([P0, P1] gives P0), and returns any prefix held by a strict majority of
the registered repositories. -/
theorem C1_determine_most_common_prefix (b : BomBuilder) (P0 P1 : String) (hne : P0 ≠ P1) :
    (b.originPrefixes = [] → determine_most_common_prefix b = none) ∧
    (b.originPrefixes = [P0, P0, P1] → determine_most_common_prefix b = some P0) ∧
    (b.originPrefixes = [P0, P1, P1] → determine_most_common_prefix b = some P1) ∧
    (b.originPrefixes = [P0, P1] → determine_most_common_prefix b = some P0) ∧
    (∀ p, 2 * b.originPrefixes.count p > b.originPrefixes.length →
        determine_most_common_prefix b = some p) := by
  have hne' : P1 ≠ P0 := Ne.symm hne
  refine ⟨?_, ?_, ?_, ?_, ?_⟩
  · intro h
    rw [ determine_most_common_prefix, h]
    rfl
  · intro h
    rw [ determine_most_common_prefix, h]
    simp [dmcpGo, List.count_cons, hne, hne']
  · intro h
    rw [ determine_most_common_prefix, h]
    simp [dmcpGo, List.count_cons, hne, hne']
  · intro h
    rw [ determine_most_common_prefix, h]
    simp [dmcpGo, List.count_cons, hne, hne']
  · intro p hp
    rw [ determine_most_common_prefix]
    exact dmcp_strict_majority _ p hp

/-- Concrete builder used to instantiate the C1 theorem. -/
def c1Builder : BomBuilder :=
  { options := { git_branch := "b", build_number := "n", bintray_org := "o",
                 bintray_debian_repository := "d", docker_registry := "r",
                 publish_gce_image_project := "g" },
    repository_name_to_service_name := id,
    baseServices := [], basePrefix := none, dependencies := [],
    added := [
      { serviceName := "r1", commit := "c1", version := "1.0.0-n", origin := "h1/u/r1" },
      { serviceName := "r2", commit := "c2", version := "1.0.0-n", origin := "h1/u/r2" },
      { serviceName := "r3", commit := "c3", version := "3.2.0-n", origin := "h2/v/r3" }] }

theorem C1_determine_most_common_prefix_witness :
    determine_most_common_prefix c1Builder = some "h1/u" :=
  ( C1_determine_most_common_prefix c1Builder "h1/u" "h2/v" (by decide)).2.1 (by decide)

/-- C4: every repository registered through `add_repository` and rendered
with `build()` produces a services entry whose version is exactly
`<summary.version>-<build_number>`. -/
theorem C4_service_version_invariant (b : BomBuilder) (repository : GitRepositorySpec)
    (source_info : SourceInfo) (buildTime : String) :
    (List.lookup (b.repository_name_to_service_name repository.name)
        ((b.add_repository repository source_info).build buildTime).services).map
      (fun e => e.version) =
    some (source_info.summary.version ++ "-" ++ source_info.build_number) := by
  show (List.lookup (b.repository_name_to_service_name repository.name)
      (applyServiceUpdates b.baseServices
        ((b.added ++ [({
            serviceName := b.repository_name_to_service_name repository.name,
            commit := source_info.summary.commit_id,
            version := source_info.summary.version ++ "-" ++ source_info.build_number,
            origin := repository.origin } : AddedService)]).map
          (fun a => (a.serviceName,
            a.toEntry (b.add_repository repository source_info).commonPrefix))))).map
      (fun e => e.version) =
    some (source_info.summary.version ++ "-" ++ source_info.build_number)
  rw [List.map_append, List.map_cons, List.map_nil]
  dsimp only
  rw [applyServiceUpdates_append_single, lookup_setService_self]
  rfl

/-- C3: seeding a builder from a prior BOM and re-adding only one service
whose version is unchanged leaves every other service entry identical to the
prior BOM, while version and timestamp are refreshed to the current
branch/build-number and build time. -/
theorem C3_rebuild_frame (opts : BomOptions) (svcName : String → String) (prior : Bom)
    (repository : GitRepositorySpec) (source_info : SourceInfo) (buildTime : String)
    (_hversion : (List.lookup (svcName repository.name) prior.services).map
        (fun e => e.version) =
      some (source_info.summary.version ++ "-" ++ source_info.build_number)) :
    (∀ name, name ≠ svcName repository.name →
      List.lookup name
          (((BomBuilder.new_from_bom opts svcName prior).add_repository repository
            source_info).build buildTime).services =
        List.lookup name prior.services) ∧
    (((BomBuilder.new_from_bom opts svcName prior).add_repository repository
        source_info).build buildTime).version =
      opts.git_branch ++ "-" ++ opts.build_number ∧
    (((BomBuilder.new_from_bom opts svcName prior).add_repository repository
        source_info).build buildTime).timestamp = buildTime := by
  refine ⟨?_, rfl, rfl⟩
  intro name hname
  exact lookup_setService_ne prior.services (svcName repository.name) name _ hname

def c3Options : BomOptions :=
  { git_branch := "master", build_number := "bn2", bintray_org := "o",
    bintray_debian_repository := "d", docker_registry := "r",
    publish_gce_image_project := "g" }

def c3Prior : Bom :=
  { version := "master-old", timestamp := "t0",
    artifactSources := { gitPrefix := some "h1/u", debianRepository := "dr",
                         dockerRegistry := "reg", googleImageProject := "gp" },
    dependencies := [("dep", "1")],
    services := [
      ("svcA", { commit := "cA", version := "1.0.0-bn", gitPrefix := none }),
      ("svcB", { commit := "cB", version := "2.0.0-bn", gitPrefix := none })] }

def c3Repo : GitRepositorySpec :=
  { name := "svcA", git_dir := "dir/svcA", origin := "h1/u/svcA",
    upstream := none, commit_id := none, branch := none }

def c3Info : SourceInfo :=
  { build_number := "bn",
    summary := { commit_id := "cA", tag := "version-1.0.0", version := "1.0.0",
                 prev_version := "0.9.0", commit_messages := [] } }

theorem C3_rebuild_frame_witness :
    List.lookup "svcB"
        (((BomBuilder.new_from_bom c3Options id c3Prior).add_repository c3Repo
          c3Info).build "t1").services =
      List.lookup "svcB" c3Prior.services :=
  (C3_rebuild_frame c3Options id c3Prior c3Repo c3Info "t1" (by decide)).1 "svcB" (by decide)

/-! ## Repository command orchestrator

Modelled from the spec: the `RepositoryCommandProcessor` fan-out
(`buildtool` support module, not present under `src/`): run the preprocess
hook, then for every target repository ensure its local working copy and
invoke the per-repository work unit, recording failures without stopping
sibling repositories; once all have finished, either invoke the postprocess
hook over the per-repository results, or re-raise a representative failure
without invoking postprocess. -/

/-- Observable orchestration events, in order of occurrence. -/
inductive RepoEvent
  | preprocessed
  | attempted (name : String)
  | ensured (name : String)
  | workOk (name : String)
  | workFailed (name : String)
  | postprocessed
deriving DecidableEq, Repr

/-- One repository's ensure-then-work attempt: its event trace and outcome. -/
def attemptRepo (ensureFn : GitRepositorySpec → Except String Unit)
    (work : GitRepositorySpec → Except String String) (r : GitRepositorySpec) :
    List RepoEvent × Except String String :=
  match ensureFn r with
  | Except.error e => ([RepoEvent.attempted r.name], Except.error e)
  | Except.ok _ =>
    match work r with
    | Except.ok v =>
      ([RepoEvent.attempted r.name, RepoEvent.ensured r.name, RepoEvent.workOk r.name],
       Except.ok v)
    | Except.error e =>
      ([RepoEvent.attempted r.name, RepoEvent.ensured r.name, RepoEvent.workFailed r.name],
       Except.error e)

/-- The first recorded failure among the outcomes, if any. -/
def firstFailure (outs : List (Except String String)) : Option String :=
  outs.findSome? (fun o => match o with
    | Except.error e => some e
    | Except.ok _ => none)

/-- Modelled from the spec: one orchestrator invocation over the resolved
repositories: every repository is attempted regardless of sibling failures;
postprocess runs only when no repository failed, else a representative
failure is re-raised. Returns the event trace and the overall outcome. -/
def runRepositoryCommand (repos : List GitRepositorySpec)
    (ensureFn : GitRepositorySpec → Except String Unit)
    (work : GitRepositorySpec → Except String String)
    (postprocess : List (String × String) → String) :
    List RepoEvent × Except String String :=
  match firstFailure ((repos.map (attemptRepo ensureFn work)).map Prod.snd) with
  | some e =>
    (RepoEvent.preprocessed :: ((repos.map (attemptRepo ensureFn work)).map Prod.fst).flatten,
     Except.error e)
  | none =>
    (RepoEvent.preprocessed ::
       (((repos.map (attemptRepo ensureFn work)).map Prod.fst).flatten ++
         [RepoEvent.postprocessed]),
     Except.ok (postprocess ((repos.zip (repos.map (attemptRepo ensureFn work))).filterMap
       (fun p => match p.2.2 with
         | Except.ok v => some (p.1.name, v)
         | Except.error _ => none))))

/-- C2: over two repositories where exactly one work unit raises, both
repositories are still attempted and the failing one still runs its work
unit, the postprocess hook is never invoked, and the overall invocation
re-raises the failure instead of returning a result. -/
theorem C2_orchestrator_failure (r1 r2 : GitRepositorySpec)
    (ensureFn : GitRepositorySpec → Except String Unit)
    (work : GitRepositorySpec → Except String String)
    (postprocess : List (String × String) → String)
    (h1 : ensureFn r1 = Except.ok ()) (h2 : ensureFn r2 = Except.ok ())
    (v e : String)
    (hcase : (work r1 = Except.ok v ∧ work r2 = Except.error e) ∨
             (work r1 = Except.error e ∧ work r2 = Except.ok v)) :
    RepoEvent.attempted r1.name ∈ (runRepositoryCommand [r1, r2] ensureFn work postprocess).1 ∧
    RepoEvent.attempted r2.name ∈ (runRepositoryCommand [r1, r2] ensureFn work postprocess).1 ∧
    RepoEvent.postprocessed ∉ (runRepositoryCommand [r1, r2] ensureFn work postprocess).1 ∧
    (runRepositoryCommand [r1, r2] ensureFn work postprocess).2 = Except.error e := by
  rcases hcase with ⟨hw1, hw2⟩ | ⟨hw1, hw2⟩ <;>
    simp [runRepositoryCommand, attemptRepo, firstFailure, h1, h2, hw1, hw2,
      List.findSome?, List.flatten]

def c2Repo1 : GitRepositorySpec :=
  { name := "repo-one", git_dir := "in/repo-one", origin := "h/o/repo-one",
    upstream := none, commit_id := none, branch := none }

def c2Repo2 : GitRepositorySpec :=
  { name := "repo-two", git_dir := "in/repo-two", origin := "h/o/repo-two",
    upstream := none, commit_id := none, branch := none }

/-- The injected work unit of the failing-command test: repo-two raises. -/
def c2Work (r : GitRepositorySpec) : Except String String :=
  if r.name = "repo-two" then Except.error "Injected Failure"
  else Except.ok ("TEST " ++ r.name)

theorem C2_orchestrator_failure_witness :
    (runRepositoryCommand [c2Repo1, c2Repo2] (fun _ => Except.ok ()) c2Work
      (fun _ => "foo")).2 = Except.error "Injected Failure" :=
  (C2_orchestrator_failure c2Repo1 c2Repo2 (fun _ => Except.ok ()) c2Work
    (fun _ => "foo") rfl rfl "TEST repo-one" "Injected Failure"
    (Or.inl ⟨rfl, rfl⟩)).2.2.2

/-! ## Branch source code manager (from src/dev/buildtool/branch_scm.py) -/

/-- The error taxonomy relevant to origin resolution. -/
inductive BuildErr
  | configError
  | unexpectedError
deriving DecidableEq, Repr

/-- Python truthiness of an optional string option or field: absent and
empty strings are falsy. -/
def pyTruthy : Option String → Bool
  | none => false
  | some s => !(s == "")

/-- The options consumed by BranchSourceCodeManager. -/
structure ScmOptions where
  git_branch : Option String
  github_owner : Option String
  github_filesystem_root : Option String
  github_pull_ssh : Bool
  scm_repository_spec_path : String
deriving DecidableEq, Repr

/-- One repository-database entry; a `none` field means the key is absent. -/
structure RepoDbEntry where
  owner : Option String
  origin_hostname : Option String
  in_bom : Bool
  service_name : Option String
deriving DecidableEq, Repr

/-- The empty entry substituted for a null database value (`... or {}`). -/
def emptyRepoDbEntry : RepoDbEntry :=
  { owner := none, origin_hostname := none, in_bom := false, service_name := none }

/-- The repository database: process-wide defaults plus per-name entries
(whose value may be null in the file). -/
structure RepoDb where
  default_git_owner : Option String
  default_origin_hostname : Option String
  repositories : List (String × Option RepoDbEntry)
deriving DecidableEq, Repr

/-- Modelled from the spec: `GitRunner.make_ssh_url` (buildtool git support
module, not under src/), in the form the branch_scm tests expect. -/
def make_ssh_url (host owner name : String) : String :=
  "git@" ++ host ++ ":" ++ owner ++ "/" ++ name

/-- Modelled from the spec: `GitRunner.make_https_url` (buildtool git
support module, not under src/), in the form the branch_scm tests expect. -/
def make_https_url (host owner name : String) : String :=
  "https://" ++ host ++ "/" ++ owner ++ "/" ++ name

/-- os.path.join over the four origin components. -/
def pathJoin4 (root host owner name : String) : String :=
  root ++ "/" ++ host ++ "/" ++ owner ++ "/" ++ name

structure BranchSourceCodeManager where
  options : ScmOptions
  source_repository_database : RepoDb
  github_owner : Option String
deriving DecidableEq, Repr

/-- Modelled from the spec: `check_options_set` (buildtool support module,
not under src/) fails with ConfigError unless every named option is set to
a non-empty value; the BranchSourceCodeManager constructor checks
git_branch and github_owner this way and stores the configured owner. -/
def BranchSourceCodeManager.make (options : ScmOptions) (db : RepoDb) :
    Except BuildErr BranchSourceCodeManager :=
  if pyTruthy options.git_branch && pyTruthy options.github_owner then
    Except.ok { options := options, source_repository_database := db,
                github_owner := options.github_owner }
  else Except.error BuildErr.configError

/-- The effective owner: for the sentinel owners the entry's own declared
owner, else the database-wide default owner; a plain owner passes through. -/
def resolveOwner (db : RepoDb) (entry : RepoDbEntry) (github_owner : String) :
    Except BuildErr String :=
  if github_owner = "upstream" ∨ github_owner = "default" then
    if pyTruthy entry.owner then Except.ok (entry.owner.getD "")
    else if pyTruthy db.default_git_owner then Except.ok (db.default_git_owner.getD "")
    else Except.error BuildErr.configError
  else Except.ok github_owner

/-- The origin hostname: the entry's own when the key is present, else the
database default (`entry.get('origin_hostname', db.get('default_origin_hostname'))`). -/
def resolveHostname (db : RepoDb) (entry : RepoDbEntry) : Option String :=
  match entry.origin_hostname with
  | some h => some h
  | none => db.default_origin_hostname

/-- A filesystem path when a filesystem root is configured, else an SSH URL
when pulls use SSH, else an HTTPS URL. -/
def renderOrigin (options : ScmOptions) (hostname owner name : String) : String :=
  if pyTruthy options.github_filesystem_root then
    pathJoin4 (options.github_filesystem_root.getD "") hostname owner name
  else if options.github_pull_ssh then make_ssh_url hostname owner name
  else make_https_url hostname owner name

/-- The hostname check and origin rendering performed after the owner has
been resolved: ConfigError when no hostname can be determined. -/
def originWithOwner (scm : BranchSourceCodeManager) (entry : RepoDbEntry)
    (owner name : String) : Except BuildErr String :=
  if pyTruthy (resolveHostname scm.source_repository_database entry) then
    Except.ok (renderOrigin scm.options
      ((resolveHostname scm.source_repository_database entry).getD "") owner name)
  else Except.error BuildErr.configError

/-- `determine_origin_for_owner` of branch_scm.py: ConfigError when the name
is not in the database; else resolve the owner, then the hostname, then
render the origin. -/
def determine_origin_for_owner (scm : BranchSourceCodeManager)
    (name github_owner : String) : Except BuildErr String :=
  match List.lookup name scm.source_repository_database.repositories with
  | none => Except.error BuildErr.configError
  | some entryOpt =>
    match resolveOwner scm.source_repository_database (entryOpt.getD emptyRepoDbEntry)
        github_owner with
    | Except.error err => Except.error err
    | Except.ok owner =>
      originWithOwner scm (entryOpt.getD emptyRepoDbEntry) owner name

/-- `determine_origin` of branch_scm.py: UnexpectedError when the stored
github owner is empty, else delegate to `determine_origin_for_owner` with
the configured owner. -/
def determine_origin (scm : BranchSourceCodeManager) (name : String) :
    Except BuildErr String :=
  if !pyTruthy scm.github_owner then Except.error BuildErr.unexpectedError
  else determine_origin_for_owner scm name (scm.github_owner.getD "")

/-- C6: `determine_origin_for_owner` fails with ConfigError when the name is
absent from the database; under a sentinel owner it substitutes the entry's
own declared owner, else the database default owner, failing with
ConfigError when neither is set; the hostname resolves from the entry, else
the database default, failing with ConfigError when still unknown. -/
theorem C6_determine_origin_rules (scm : BranchSourceCodeManager) (name ownerArg : String) :
    (List.lookup name scm.source_repository_database.repositories = none →
      determine_origin_for_owner scm name ownerArg = Except.error BuildErr.configError) ∧
    (∀ eo, List.lookup name scm.source_repository_database.repositories = some eo →
      ((ownerArg = "upstream" ∨ ownerArg = "default") →
        (pyTruthy (eo.getD emptyRepoDbEntry).owner = true →
          determine_origin_for_owner scm name ownerArg =
            originWithOwner scm (eo.getD emptyRepoDbEntry)
              ((eo.getD emptyRepoDbEntry).owner.getD "") name) ∧
        (pyTruthy (eo.getD emptyRepoDbEntry).owner = false →
          pyTruthy scm.source_repository_database.default_git_owner = true →
          determine_origin_for_owner scm name ownerArg =
            originWithOwner scm (eo.getD emptyRepoDbEntry)
              (scm.source_repository_database.default_git_owner.getD "") name) ∧
        (pyTruthy (eo.getD emptyRepoDbEntry).owner = false →
          pyTruthy scm.source_repository_database.default_git_owner = false →
          determine_origin_for_owner scm name ownerArg =
            Except.error BuildErr.configError)) ∧
      (¬ (ownerArg = "upstream" ∨ ownerArg = "default") →
        determine_origin_for_owner scm name ownerArg =
          originWithOwner scm (eo.getD emptyRepoDbEntry) ownerArg name)) ∧
    (∀ entry owner,
      pyTruthy (resolveHostname scm.source_repository_database entry) = false →
      originWithOwner scm entry owner name = Except.error BuildErr.configError) := by
  refine ⟨?_, ?_, ?_⟩
  · intro h
    simp [determine_origin_for_owner, h]
  · intro eo heo
    refine ⟨?_, ?_⟩
    · intro hs
      refine ⟨?_, ?_, ?_⟩
      · intro howner
        simp [determine_origin_for_owner, heo, resolveOwner, hs, howner]
      · intro howner hdef
        simp [determine_origin_for_owner, heo, resolveOwner, hs, howner, hdef]
      · intro howner hdef
        simp [determine_origin_for_owner, heo, resolveOwner, hs, howner, hdef]
    · intro hs
      simp [determine_origin_for_owner, heo, resolveOwner, hs]
  · intro entry owner hhost
    simp [originWithOwner, hhost]

def c6Entry : RepoDbEntry :=
  { owner := some "outlier-owner", origin_hostname := some "outlier-host",
    in_bom := true, service_name := some "outlier-test-service" }

def c6Scm : BranchSourceCodeManager :=
  { options := { git_branch := some "testing", github_owner := some "default",
                 github_filesystem_root := none, github_pull_ssh := false,
                 scm_repository_spec_path := "standard_test_repositories.yml" },
    source_repository_database :=
      { default_git_owner := some "test-owner",
        default_origin_hostname := some "test-gitserver",
        repositories := [("outlier-test-repo", some c6Entry),
                         ("normal-test-service", none)] },
    github_owner := some "default" }

theorem C6_determine_origin_rules_witness :
    determine_origin_for_owner c6Scm "outlier-test-repo" "default" =
      originWithOwner c6Scm ((some c6Entry).getD emptyRepoDbEntry)
        (((some c6Entry).getD emptyRepoDbEntry).owner.getD "") "outlier-test-repo" :=
  (((C6_determine_origin_rules c6Scm "outlier-test-repo" "default").2.1 (some c6Entry)
    (by decide)).1 (Or.inr rfl)).1 (by decide)

/-- Any error produced by the owner resolution is a ConfigError. -/
theorem resolveOwner_error_config (db : RepoDb) (entry : RepoDbEntry)
    (o : String) (e : BuildErr) (h : resolveOwner db entry o = Except.error e) :
    e = BuildErr.configError := by
  unfold resolveOwner at h
  split_ifs at h
  all_goals simp_all


/-- `determine_origin_for_owner` never produces an UnexpectedError. -/
theorem dofo_ne_unexpected (scm : BranchSourceCodeManager) (name o : String) :
    determine_origin_for_owner scm name o ≠ Except.error BuildErr.unexpectedError := by
  unfold determine_origin_for_owner
  split
  · simp
  · split
    · rename_i err heq
      have := resolveOwner_error_config _ _ _ _ heq
      subst this
      simp
    · unfold originWithOwner
      split_ifs <;> simp

/-- C9: for every successfully constructed BranchSourceCodeManager the
UnexpectedError branch of `determine_origin` is unreachable: the call always
delegates to `determine_origin_for_owner` with the configured owner and
never produces the UnexpectedError. -/
theorem C9_unexpected_branch_unreachable (options : ScmOptions) (db : RepoDb)
    (scm : BranchSourceCodeManager)
    (hmk : BranchSourceCodeManager.make options db = Except.ok scm) :
    ∀ name, determine_origin scm name =
        determine_origin_for_owner scm name (scm.github_owner.getD "") ∧
      determine_origin scm name ≠ Except.error BuildErr.unexpectedError := by
  intro name
  unfold BranchSourceCodeManager.make at hmk
  split_ifs at hmk with hset
  · have hscm : scm = ⟨options, db, options.github_owner⟩ := by
      injection hmk with h
      exact h.symm
    have howner : pyTruthy scm.github_owner = true := by
      rw [hscm]
      exact (Bool.and_eq_true _ _ |>.mp hset).2
    constructor
    · unfold determine_origin
      rw [howner]
      simp
    · unfold determine_origin
      rw [howner]
      simpa using dofo_ne_unexpected scm name (scm.github_owner.getD "")

def c9Options : ScmOptions :=
  { git_branch := some "testing", github_owner := some "default",
    github_filesystem_root := none, github_pull_ssh := false,
    scm_repository_spec_path := "standard_test_repositories.yml" }

def c9Scm : BranchSourceCodeManager :=
  { options := c9Options,
    source_repository_database := c6Scm.source_repository_database,
    github_owner := some "default" }

theorem C9_unexpected_branch_unreachable_witness :
    determine_origin c9Scm "outlier-test-repo" =
      determine_origin_for_owner c9Scm "outlier-test-repo"
        (c9Scm.github_owner.getD "") :=
  (C9_unexpected_branch_unreachable c9Options c9Scm.source_repository_database c9Scm
    rfl "outlier-test-repo").1

/-! ## Spinnaker commands (from src/dev/buildtool/spinnaker_commands.py) -/

/-- Git-level operations issued by the publish and release-branch flows. -/
inductive GitAction
  | ensure (repo : String)
  | tag (repo : String) (tagName : String)
  | pushBranch (repo : String) (branch : String)
  | pushTag (repo : String) (tagName : String)
deriving DecidableEq, Repr

def actionRepo : GitAction → String
  | GitAction.ensure r => r
  | GitAction.tag r _ => r
  | GitAction.pushBranch r _ => r
  | GitAction.pushTag r _ => r

def isPushAction : GitAction → Bool
  | GitAction.pushBranch _ _ => true
  | GitAction.pushTag _ _ => true
  | _ => false

def isTagAction : GitAction → Bool
  | GitAction.tag _ _ => true
  | _ => false

/-- The two passes of `push_branches_and_tags`. -/
inductive PassKind
  | tagging
  | pushing
deriving DecidableEq, Repr

/-- The monitoring-daemon service is processed under the repository name
spinnaker-monitoring. -/
def renameService (name : String) : String :=
  if name = "monitoring-daemon" then "spinnaker-monitoring" else name

/-- The actions one BOM service entry contributes to one pass of
`push_branches_and_tags`: the monitoring-third-party and defaultArtifact
entries and null specs contribute nothing; otherwise the repository is
ensured and then tagged (tagging pass) or its branch and tag pushed
(push pass), the tag being `version-` followed by the repository-summary
version (`summaryVersion` models `scm.lookup_source_info`, whose
BomSourceCodeManager is not under src/). -/
def serviceActions (which : PassKind) (name : String) (spec : Option ServiceEntry)
    (branch : String) (summaryVersion : String → String) : List GitAction :=
  if name = "monitoring-third-party" ∨ name = "defaultArtifact" then []
  else match spec with
    | none => []
    | some _ =>
      match which with
      | PassKind.tagging =>
        [GitAction.ensure (renameService name),
         GitAction.tag (renameService name)
           ("version-" ++ summaryVersion (renameService name))]
      | PassKind.pushing =>
        [GitAction.ensure (renameService name),
         GitAction.pushBranch (renameService name) branch,
         GitAction.pushTag (renameService name)
           ("version-" ++ summaryVersion (renameService name))]

/-- One full pass over all of the BOM's service entries, in order. -/
def passActions (which : PassKind) (services : List (String × Option ServiceEntry))
    (branch : String) (summaryVersion : String → String) : List GitAction :=
  (services.map (fun nv => serviceActions which nv.1 nv.2 branch summaryVersion)).flatten

/-- `push_branches_and_tags`: a complete tagging pass over every service
repository, then a complete push pass. -/
def push_branches_and_tags (services : List (String × Option ServiceEntry))
    (branch : String) (summaryVersion : String → String) : List GitAction :=
  passActions PassKind.tagging services branch summaryVersion ++
  passActions PassKind.pushing services branch summaryVersion

/-- Run git actions in order; the first failing action aborts the run.
Returns the attempted actions and whether all succeeded. -/
def runActions (fails : GitAction → Bool) : List GitAction → List GitAction × Bool
  | [] => ([], true)
  | a :: rest =>
    if fails a then ([a], false)
    else (a :: (runActions fails rest).1, (runActions fails rest).2)

/-! ## Release-branch command (InitiateReleaseBranchCommand._do_repository) -/

/-- The git operations of the release-branch command. -/
inductive RelAction
  | deleteRemoteBranch (branch : String)
  | checkoutNewBranch (branch : String)
  | pushBranchOrigin (branch : String)
deriving DecidableEq, Repr

structure ReleaseBranchOptions where
  spinnaker_version : String
  skip_existing : Bool
  delete_existing : Bool
deriving DecidableEq, Repr

/-- `_do_repository` of the release-branch command: when the release branch
already exists on the origin, skip under skip_existing, delete and fall
through to recreate under delete_existing, else fail with ConfigError;
then (unless skipped) create the branch and push it to the origin. -/
def initiate_do_repository (opts : ReleaseBranchOptions)
    (remoteBranches : List String) : Except BuildErr (List RelAction) :=
  if ("origin/" ++ opts.spinnaker_version) ∈ remoteBranches then
    if opts.skip_existing then Except.ok []
    else if opts.delete_existing then
      Except.ok [RelAction.deleteRemoteBranch opts.spinnaker_version,
                 RelAction.checkoutNewBranch opts.spinnaker_version,
                 RelAction.pushBranchOrigin opts.spinnaker_version]
    else Except.error BuildErr.configError
  else Except.ok [RelAction.checkoutNewBranch opts.spinnaker_version,
                  RelAction.pushBranchOrigin opts.spinnaker_version]

/-- C7: per repository, when the release branch already exists on the origin
the repository is skipped under the skip-if-exists policy, or the branch is
deleted and then recreated and pushed under the delete-and-recreate policy;
when it does not exist it is created and pushed. -/
theorem C7_release_branch_policies (opts : ReleaseBranchOptions)
    (remoteBranches : List String) :
    (("origin/" ++ opts.spinnaker_version) ∈ remoteBranches →
      opts.skip_existing = true →
      initiate_do_repository opts remoteBranches = Except.ok []) ∧
    (("origin/" ++ opts.spinnaker_version) ∈ remoteBranches →
      opts.skip_existing = false → opts.delete_existing = true →
      initiate_do_repository opts remoteBranches =
        Except.ok [RelAction.deleteRemoteBranch opts.spinnaker_version,
                   RelAction.checkoutNewBranch opts.spinnaker_version,
                   RelAction.pushBranchOrigin opts.spinnaker_version]) ∧
    (("origin/" ++ opts.spinnaker_version) ∉ remoteBranches →
      initiate_do_repository opts remoteBranches =
        Except.ok [RelAction.checkoutNewBranch opts.spinnaker_version,
                   RelAction.pushBranchOrigin opts.spinnaker_version]) := by
  refine ⟨?_, ?_, ?_⟩
  · intro hmem hskip
    simp [initiate_do_repository, hmem, hskip]
  · intro hmem hskip hdel
    simp [initiate_do_repository, hmem, hskip, hdel]
  · intro hmem
    simp [initiate_do_repository, hmem]

theorem C7_release_branch_policies_witness :
    initiate_do_repository
      { spinnaker_version := "release-1.2.x", skip_existing := true,
        delete_existing := false }
      ["origin/master", "origin/release-1.2.x"] = Except.ok [] :=
  (C7_release_branch_policies
    { spinnaker_version := "release-1.2.x", skip_existing := true,
      delete_existing := false }
    ["origin/master", "origin/release-1.2.x"]).1 (by decide) rfl

/-! ## Lemmas about the publish passes -/

theorem mem_passActions (which : PassKind) (s : List (String × Option ServiceEntry))
    (b : String) (v : String → String) (a : GitAction) :
    a ∈ passActions which s b v ↔
      ∃ nv ∈ s, a ∈ serviceActions which nv.1 nv.2 b v := by
  simp only [passActions, List.mem_flatten, List.mem_map]
  constructor
  · rintro ⟨l, ⟨nv, hmem, rfl⟩, hal⟩
    exact ⟨nv, hmem, hal⟩
  · rintro ⟨nv, hmem, hal⟩
    exact ⟨_, ⟨nv, hmem, rfl⟩, hal⟩

theorem renameService_not_skip (n : String)
    (h : ¬(n = "monitoring-third-party" ∨ n = "defaultArtifact")) :
    renameService n ≠ "monitoring-third-party" ∧ renameService n ≠ "defaultArtifact" := by
  unfold renameService
  split_ifs with hd
  · exact ⟨by decide, by decide⟩
  · push_neg at h
    exact ⟨h.1, h.2⟩

theorem serviceActions_mem_facts (which : PassKind) (n : String)
    (sp : Option ServiceEntry) (b : String) (v : String → String) :
    ∀ a ∈ serviceActions which n sp b v,
      actionRepo a = renameService n ∧
      ¬(n = "monitoring-third-party" ∨ n = "defaultArtifact") ∧
      (isTagAction a = true →
        a = GitAction.tag (renameService n) ("version-" ++ v (renameService n))) := by
  intro a ha
  unfold serviceActions at ha
  split_ifs at ha with h
  · simp at ha
  · rcases sp with _ | e
    · simp at ha
    · cases which with
      | tagging =>
        simp at ha
        rcases ha with rfl | rfl
        · exact ⟨rfl, h, by intro hT; simp [isTagAction] at hT⟩
        · exact ⟨rfl, h, fun _ => rfl⟩
      | pushing =>
        simp at ha
        rcases ha with rfl | rfl | rfl
        · exact ⟨rfl, h, by intro hT; simp [isTagAction] at hT⟩
        · exact ⟨rfl, h, by intro hT; simp [isTagAction] at hT⟩
        · exact ⟨rfl, h, by intro hT; simp [isTagAction] at hT⟩

theorem serviceActions_tagging_no_push (n : String) (sp : Option ServiceEntry)
    (b : String) (v : String → String) :
    ∀ a ∈ serviceActions PassKind.tagging n sp b v, isPushAction a = false := by
  intro a ha
  unfold serviceActions at ha
  split_ifs at ha with h
  · simp at ha
  · rcases sp with _ | e
    · simp at ha
    · simp at ha
      rcases ha with rfl | rfl <;> rfl

theorem tagging_pass_no_push (s : List (String × Option ServiceEntry))
    (b : String) (v : String → String) :
    ∀ a ∈ passActions PassKind.tagging s b v, isPushAction a = false := by
  intro a ha
  obtain ⟨nv, hnv, hsvc⟩ := (mem_passActions _ s b v a).mp ha
  exact serviceActions_tagging_no_push nv.1 nv.2 b v a hsvc

theorem runActions_mem (fails : GitAction → Bool) (l : List GitAction) :
    ∀ a ∈ (runActions fails l).1, a ∈ l := by
  induction l with
  | nil => simp [runActions]
  | cons x rest ih =>
    intro a ha
    rw [runActions] at ha
    by_cases hf : fails x
    · rw [if_pos hf] at ha
      simp at ha
      simp [ha]
    · rw [if_neg hf] at ha
      simp only [List.mem_cons] at ha
      rcases ha with rfl | ha
      · exact List.mem_cons_self _ _
      · exact List.mem_cons_of_mem _ (ih a ha)

theorem runActions_failed_append (fails : GitAction → Bool) (l1 l2 : List GitAction)
    (h : (runActions fails l1).2 = false) :
    runActions fails (l1 ++ l2) = runActions fails l1 := by
  induction l1 with
  | nil => simp [runActions] at h
  | cons x rest ih =>
    rw [List.cons_append, runActions, runActions]
    by_cases hf : fails x
    · rw [if_pos hf, if_pos hf]
    · rw [if_neg hf, if_neg hf]
      rw [runActions, if_neg hf] at h
      simp only at h
      rw [ih h]

theorem exists_fail_failed (fails : GitAction → Bool) (l : List GitAction)
    (h : ∃ t ∈ l, fails t = true) : (runActions fails l).2 = false := by
  induction l with
  | nil => simp at h
  | cons x rest ih =>
    rw [runActions]
    by_cases hf : fails x
    · rw [if_pos hf]
    · rw [if_neg hf]
      simp only
      rcases h with ⟨t, ht, hft⟩
      rcases List.mem_cons.mp ht with rfl | ht'
      · exact absurd hft (by simp [hf])
      · exact ih ⟨t, ht', hft⟩

theorem mem_tag_pass_iff (s : List (String × Option ServiceEntry)) (b : String)
    (v : String → String) (nm : String) :
    GitAction.tag nm ("version-" ++ v nm) ∈ passActions PassKind.tagging s b v ↔
      ∃ nv ∈ s, ¬(nv.1 = "monitoring-third-party" ∨ nv.1 = "defaultArtifact") ∧
        nv.2.isSome = true ∧ renameService nv.1 = nm := by
  rw [mem_passActions]
  constructor
  · rintro ⟨nv, hnv, hsvc⟩
    refine ⟨nv, hnv, ?_⟩
    unfold serviceActions at hsvc
    split_ifs at hsvc with h
    · simp at hsvc
    · rcases hv : nv.2 with _ | e
      · rw [hv] at hsvc; simp at hsvc
      · rw [hv] at hsvc
        simp at hsvc
        exact ⟨h, by simp [hv], hsvc.1.symm⟩
  · rintro ⟨nv, hnv, hskip, hsome, hname⟩
    refine ⟨nv, hnv, ?_⟩
    unfold serviceActions
    rw [if_neg hskip]
    rcases hv : nv.2 with _ | e
    · rw [hv] at hsome; simp at hsome
    · rw [hname]
      simp

theorem mem_pushTag_pass_iff (s : List (String × Option ServiceEntry)) (b : String)
    (v : String → String) (nm : String) :
    GitAction.pushTag nm ("version-" ++ v nm) ∈ passActions PassKind.pushing s b v ↔
      ∃ nv ∈ s, ¬(nv.1 = "monitoring-third-party" ∨ nv.1 = "defaultArtifact") ∧
        nv.2.isSome = true ∧ renameService nv.1 = nm := by
  rw [mem_passActions]
  constructor
  · rintro ⟨nv, hnv, hsvc⟩
    refine ⟨nv, hnv, ?_⟩
    unfold serviceActions at hsvc
    split_ifs at hsvc with h
    · simp at hsvc
    · rcases hv : nv.2 with _ | e
      · rw [hv] at hsvc; simp at hsvc
      · rw [hv] at hsvc
        simp at hsvc
        exact ⟨h, by simp [hv], hsvc.1.symm⟩
  · rintro ⟨nv, hnv, hskip, hsome, hname⟩
    refine ⟨nv, hnv, ?_⟩
    unfold serviceActions
    rw [if_neg hskip]
    rcases hv : nv.2 with _ | e
    · rw [hv] at hsome; simp at hsome
    · rw [hname]
      simp

/-- C5: `push_branches_and_tags` is two full passes — a tagging pass over
every service repository followed by a push pass — so the tagging pass
contains no push operation, every tagged repository is also push-covered
and conversely, and a failure during the tagging pass aborts the run before
any push operation is attempted. -/
theorem C5_two_pass_no_partial_push (services : List (String × Option ServiceEntry))
    (branch : String) (sumv : String → String) (fails : GitAction → Bool) :
    (push_branches_and_tags services branch sumv =
       passActions PassKind.tagging services branch sumv ++
       passActions PassKind.pushing services branch sumv) ∧
    (∀ a ∈ passActions PassKind.tagging services branch sumv, isPushAction a = false) ∧
    (∀ nm, GitAction.tag nm ("version-" ++ sumv nm) ∈
        passActions PassKind.tagging services branch sumv ↔
      GitAction.pushTag nm ("version-" ++ sumv nm) ∈
        passActions PassKind.pushing services branch sumv) ∧
    ((∃ t ∈ passActions PassKind.tagging services branch sumv, fails t = true) →
      ∀ a ∈ (runActions fails (push_branches_and_tags services branch sumv)).1,
        isPushAction a = false) := by
  refine ⟨rfl, tagging_pass_no_push services branch sumv, ?_, ?_⟩
  · intro nm
    rw [mem_tag_pass_iff, mem_pushTag_pass_iff]
  · intro hfail a ha
    have hfailed : (runActions fails (passActions PassKind.tagging services branch sumv)).2 =
        false := exists_fail_failed fails _ hfail
    rw [push_branches_and_tags, runActions_failed_append fails _ _ hfailed] at ha
    exact tagging_pass_no_push services branch sumv a (runActions_mem fails _ a ha)

def c5Services : List (String × Option ServiceEntry) :=
  [("clouddriver", some { commit := "c1", version := "9.8.7-b", gitPrefix := none }),
   ("monitoring-daemon", some { commit := "c2", version := "1.2.3-b", gitPrefix := none }),
   ("monitoring-third-party", some { commit := "c2", version := "1.2.3-b", gitPrefix := none }),
   ("broken", none)]

/-- A failure injected at the tagging of clouddriver. -/
def c5Fails (a : GitAction) : Bool :=
  match a with
  | GitAction.tag "clouddriver" _ => true
  | _ => false

theorem C5_two_pass_no_partial_push_witness :
    ∀ a ∈ (runActions c5Fails
        (push_branches_and_tags c5Services "release-9.8.x" (fun _ => "9.8.7"))).1,
      isPushAction a = false :=
  (C5_two_pass_no_partial_push c5Services "release-9.8.x" (fun _ => "9.8.7")
    c5Fails).2.2.2
    ⟨GitAction.tag "clouddriver" "version-9.8.7", by decide, by decide⟩

/-- C10: during `push_branches_and_tags`, the monitoring-third-party and
defaultArtifact entries and entries with a null spec contribute no actions
to either pass; monitoring-daemon is processed under the repository name
spinnaker-monitoring; no action ever targets a skipped name; and every tag
action is `version-` followed by the repository-summary version of the
repository it targets. -/
theorem C10_publish_skip_and_rename (services rest : List (String × Option ServiceEntry))
    (branch : String) (sumv : String → String) (n : String) (sp : ServiceEntry)
    (spOpt : Option ServiceEntry) :
    (∀ which, passActions which (("monitoring-third-party", spOpt) :: rest) branch sumv =
        passActions which rest branch sumv) ∧
    (∀ which, passActions which (("defaultArtifact", spOpt) :: rest) branch sumv =
        passActions which rest branch sumv) ∧
    (∀ which, passActions which ((n, none) :: rest) branch sumv =
        passActions which rest branch sumv) ∧
    (passActions PassKind.tagging (("monitoring-daemon", some sp) :: rest) branch sumv =
      GitAction.ensure "spinnaker-monitoring" ::
      GitAction.tag "spinnaker-monitoring" ("version-" ++ sumv "spinnaker-monitoring") ::
      passActions PassKind.tagging rest branch sumv) ∧
    (passActions PassKind.pushing (("monitoring-daemon", some sp) :: rest) branch sumv =
      GitAction.ensure "spinnaker-monitoring" ::
      GitAction.pushBranch "spinnaker-monitoring" branch ::
      GitAction.pushTag "spinnaker-monitoring" ("version-" ++ sumv "spinnaker-monitoring") ::
      passActions PassKind.pushing rest branch sumv) ∧
    (∀ a ∈ push_branches_and_tags services branch sumv,
      actionRepo a ≠ "monitoring-third-party" ∧ actionRepo a ≠ "defaultArtifact") ∧
    (∀ a ∈ push_branches_and_tags services branch sumv, isTagAction a = true →
      ∃ nm, a = GitAction.tag nm ("version-" ++ sumv nm)) := by
  refine ⟨fun _ => rfl, fun _ => rfl, ?_, rfl, rfl, ?_, ?_⟩
  · intro which
    show serviceActions which n none branch sumv ++ passActions which rest branch sumv =
      passActions which rest branch sumv
    have hz : serviceActions which n none branch sumv = [] := by
      unfold serviceActions
      split_ifs <;> rfl
    rw [hz, List.nil_append]
  · intro a ha
    rcases List.mem_append.mp ha with h | h <;>
    · obtain ⟨nv, hnv, hsvc⟩ := (mem_passActions _ services branch sumv a).mp h
      obtain ⟨hrepo, hskip, _⟩ := serviceActions_mem_facts _ nv.1 nv.2 branch sumv a hsvc
      rw [hrepo]
      exact renameService_not_skip nv.1 hskip
  · intro a ha hTag
    rcases List.mem_append.mp ha with h | h <;>
    · obtain ⟨nv, hnv, hsvc⟩ := (mem_passActions _ services branch sumv a).mp h
      obtain ⟨_, _, htag⟩ := serviceActions_mem_facts _ nv.1 nv.2 branch sumv a hsvc
      exact ⟨renameService nv.1, htag hTag⟩

theorem C10_publish_skip_and_rename_witness :
    actionRepo (GitAction.ensure "spinnaker-monitoring") ≠ "monitoring-third-party" ∧
    actionRepo (GitAction.ensure "spinnaker-monitoring") ≠ "defaultArtifact" :=
  (C10_publish_skip_and_rename c5Services []
    "release-9.8.x" (fun _ => "9.8.7") "x"
    { commit := "c", version := "1.2.3-b", gitPrefix := none } none).2.2.2.2.2.1
    (GitAction.ensure "spinnaker-monitoring") (by decide)
